import Mathlib

/-!
Verification of the WASI compatibility-table harness (`src/build.py`).

The harness is shallowly embedded: Python dicts become association lists
(`List (String × String)`) whose iteration order is insertion order, the
`subprocess.run` call and the adapter invocations are oracles
(`call : … → Except RunErr ProcResult`), spec-file loading is an oracle
(`loadSpec : String → Except SpecErr TestSpec`), `tempfile.mkdtemp` is a
fresh-name counter threaded through `run_tests`, and the
`shutil.copytree` invocation is recorded as a `SandboxEvent`.
Exceptions become `Except` errors; the `try/except/finally` in
`run_tests` becomes a `match` on the `Except` value.
-/

namespace WasiCompat

/-- One test's specification document (the JSON file next to the `.wasm`
module).  Python `dict.get(key, None)` becomes an `Option` field; the
`env` and `preopens` dicts become association lists in insertion order. -/
structure TestSpec where
  env : List (String × String) := []
  args : List String := []
  preopens : List (String × String) := []
  stdin : Option String := none
  stdout : Option String := none
  stderr : Option String := none
  exitCode : Option Int := none
deriving DecidableEq, Repr

/-- The observable result of a completed subprocess (`subprocess.run`):
captured stdout, captured stderr and the exit status. -/
structure ProcResult where
  stdout : String
  stderr : String
  returncode : Int
deriving DecidableEq, Repr

/-- Exceptions that a test invocation can raise: `AssertionError` from the
explicit checks in `run_test`, `CalledProcessError` from
`process.check_returncode()`, and the launch failure (`FileNotFoundError`
etc.) raised by `subprocess.run` when the engine binary cannot be
started. -/
inductive RunErr where
  | assertionError (msg : String)
  | calledProcessError (code : Int)
  | launchError
deriving DecidableEq, Repr

/-- Classification part of `run_test` (src/build.py lines 15-29), applied
to an already-captured process result.  This mirrors the source line by
line, including the slip at lines 19-21: the variable `stderr` is bound
but the condition guarding the second `raise` re-tests `stdout`, so the
captured stderr is never compared against the expectation. -/
def run_test (testspec : TestSpec) (process : ProcResult) : Except RunErr ProcResult :=
  let stdout := testspec.stdout
  if stdout ≠ none ∧ stdout ≠ some process.stdout then
    .error (.assertionError "stdout")
  else
    let stderr := testspec.stderr
    if stdout ≠ none ∧ stdout ≠ some process.stdout then
      .error (.assertionError "stdout")
    else
      let returncode := testspec.exitCode
      if returncode ≠ none ∧ returncode ≠ some process.returncode then
        .error (.assertionError "exitCode")
      else if returncode = none ∧ process.returncode ≠ 0 then
        .error (.calledProcessError process.returncode)
      else
        have _unused := stderr
        .ok process

/-- One matrix cell as built in `run_tests` (src/build.py lines 165-176):
`status` starts as `None` and is set to `"pass"` in the `try` branch or
`"fail"` in the `except Exception` branch; the `error` field is
initialized to `None` and never written. -/
structure Cell where
  status : Option String
  error : Option String
deriving DecidableEq, Repr

/-- The `try/except/finally` of src/build.py lines 170-176: a successful
invocation records `"pass"`, any raised exception records `"fail"`. -/
def mkCell (r : Except RunErr ProcResult) : Cell :=
  match r with
  | .ok _ => { status := some "pass", error := none }
  | .error _ => { status := some "fail", error := none }

/-- Command vector built by `run_deno_test` (src/build.py lines 31-65).
The bootstrap script `.test.deno.ts` is written with fixed contents and
appended via `os.path.abspath`; the absolute-path prefix is irrelevant to
the claims and the path is kept as its literal name.  `json.dumps` is the
`serialize` oracle. -/
def run_deno_test_cmd (serialize : TestSpec → String) (testmod : String)
    (testspec : TestSpec) : List String :=
  let testcmd := ["deno", "run"]
  let testcmd := testcmd ++ ["--quiet"]
  let testcmd := testcmd ++ ["--allow-all"]
  let testcmd := testcmd ++ ["--unstable"]
  let testcmd := testcmd ++ [".test.deno.ts"]
  let testcmd := testcmd ++ [serialize testspec]
  let testcmd := testcmd ++ [testmod]
  testcmd

/-- The configuration handed to the WASI shim by a bootstrap script: the
`new Context({env, args, preopens})` (deno) or `new WASI({...})` (node)
constructor argument. -/
structure WasiContextOptions where
  env : List (String × String)
  args : List String
  preopens : List (String × String)
deriving DecidableEq, Repr

/-- Semantics of the `.test.deno.ts` bootstrap written by `run_deno_test`
(src/build.py lines 39-58): `options = JSON.parse(Deno.args[0])`, the
module is read from `Deno.args[1]`, `pathname = Deno.args[1]`, and the
context is built with `env: options.env`,
`args: [pathname].concat(options.args)`, `preopens: options.preopens`.
`JSON.parse` is the `parse` oracle; fewer than two script arguments make
the indexing throw, modeled as `none`. -/
def denoBootstrap (parse : String → TestSpec) : List String → Option WasiContextOptions
  | a0 :: a1 :: _ =>
    let options := parse a0
    let pathname := a1
    some { env := options.env
           args := pathname :: options.args
           preopens := options.preopens }
  | _ => none

/-- Command vector built by `run_wasmer_test` (src/build.py lines 102-124):
`["wasmer", "run"]`, then `--env KEY=VALUE` per environment entry, then
`--mapdir guest::host` per preopen entry, then the module path, then `--`
followed by the arguments when they are non-empty. -/
def run_wasmer_test_cmd (testmod : String) (testspec : TestSpec) : List String :=
  let testcmd := ["wasmer", "run"]
  let testcmd := testspec.env.foldl
    (fun acc kv => acc ++ ["--env", kv.1 ++ "=" ++ kv.2]) testcmd
  let testcmd := testspec.preopens.foldl
    (fun acc kv => acc ++ ["--mapdir", kv.1 ++ "::" ++ kv.2]) testcmd
  let testcmd := testcmd ++ [testmod]
  let args := testspec.args
  let testcmd := if args.length > 0 then testcmd ++ ["--"] else testcmd
  let testcmd := args.foldl (fun acc a => acc ++ [a]) testcmd
  testcmd

/-- Command vector built by `run_wasmtime_test` (src/build.py lines
126-148); identical shape to `run_wasmer_test` with the `wasmtime`
binary. -/
def run_wasmtime_test_cmd (testmod : String) (testspec : TestSpec) : List String :=
  let testcmd := ["wasmtime", "run"]
  let testcmd := testspec.env.foldl
    (fun acc kv => acc ++ ["--env", kv.1 ++ "=" ++ kv.2]) testcmd
  let testcmd := testspec.preopens.foldl
    (fun acc kv => acc ++ ["--mapdir", kv.1 ++ "::" ++ kv.2]) testcmd
  let testcmd := testcmd ++ [testmod]
  let args := testspec.args
  let testcmd := if args.length > 0 then testcmd ++ ["--"] else testcmd
  let testcmd := args.foldl (fun acc a => acc ++ [a]) testcmd
  testcmd

/-- The four adapter functions defined in src/build.py: `run_deno_test`,
`test_node`, `run_wasmer_test`, `run_wasmtime_test`. -/
inductive AdapterFn where
  | run_deno_test
  | test_node
  | run_wasmer_test
  | run_wasmtime_test
deriving DecidableEq, Repr

/-- The `testrunners` dict of src/build.py lines 181-186, as an
association list in declaration order: column name paired with the
adapter function the dict maps it to. -/
def testrunners : List (String × AdapterFn) :=
  [("deno", .run_deno_test),
   ("node", .run_deno_test),
   ("wasmer", .run_wasmtime_test),
   ("wasmtime", .run_wasmtime_test)]

/-- Exception raised while loading a spec file in `run_tests`
(src/build.py lines 156-157): `open` on a missing file or `json.load` on
a malformed one. -/
inductive SpecErr where
  | specLoadFailure (msg : String)
deriving DecidableEq, Repr

/-- One sandbox provisioning as performed per cell in `run_tests`
(src/build.py lines 162-163): `testdir = tempfile.mkdtemp()` (the fresh
directory, modeled by a counter value) followed by
`shutil.copytree("tests/fixtures", os.path.join(testdir, "fixtures"),
symlinks=True)`. -/
structure SandboxEvent where
  testmod : String
  runner : String
  dir : Nat
  copySrc : String
  copyDstSub : String
  symlinks : Bool
deriving DecidableEq, Repr

/-- Inner loop of `run_tests` (src/build.py lines 159-176) over the
runners of one test: provision a fresh sandbox (counter `ctr` is the
`mkdtemp` fresh-name supply), invoke the adapter through the `call`
oracle, and record the cell.  Returns the row cells in runner order, the
sandbox events, and the advanced counter. -/
def runRow {A : Type} (call : A → String → TestSpec → Nat → Except RunErr ProcResult)
    (testmod : String) (testspec : TestSpec) :
    List (String × A) → Nat → List (String × Cell) × List SandboxEvent × Nat
  | [], ctr => ([], [], ctr)
  | (name, fn) :: rest, ctr =>
    let testdir := ctr
    let ev : SandboxEvent :=
      { testmod := testmod, runner := name, dir := testdir
        copySrc := "tests/fixtures", copyDstSub := "fixtures", symlinks := true }
    let cell := mkCell (call fn testmod testspec testdir)
    let rec_result := runRow call testmod testspec rest (ctr + 1)
    ((name, cell) :: rec_result.1, ev :: rec_result.2.1, rec_result.2.2)

/-- `run_tests` (src/build.py lines 150-178).  The spec file of each test
is loaded before the runner loop and outside any `try`, so a loading
failure propagates out of the whole function (the `Except` bind).  Each
cell invocation is wrapped by `mkCell` (the `try/except/finally`).  The
result keeps rows in test order and cells in runner order, plus the
sandbox-provisioning trace and the final fresh-name counter. -/
def run_tests {A : Type} (loadSpec : String → Except SpecErr TestSpec)
    (call : A → String → TestSpec → Nat → Except RunErr ProcResult)
    (testrunners : List (String × A)) :
    List String → Nat →
    Except SpecErr (List (String × List (String × Cell)) × List SandboxEvent × Nat)
  | [], ctr => .ok ([], [], ctr)
  | testmod :: rest, ctr => do
    let testspec ← loadSpec testmod
    let row := runRow call testmod testspec testrunners ctr
    let rest_result ← run_tests loadSpec call testrunners rest row.2.2
    .ok ((testmod, row.1) :: rest_result.1, row.2.1 ++ rest_result.2.1, rest_result.2.2)

/-- Closed form of one row: the cell of the runner at offset `j` is
`mkCell` of that runner's own invocation, provisioned in sandbox
`ctr + j`. -/
def expectedRow {A : Type} (call : A → String → TestSpec → Nat → Except RunErr ProcResult)
    (testmod : String) (testspec : TestSpec) (runners : List (String × A))
    (ctr : Nat) : List (String × Cell) :=
  (List.enumFrom ctr runners).map
    (fun p => (p.2.1, mkCell (call p.2.2 testmod testspec p.1)))

/-- Closed form of one row's sandbox events: sandbox directories
`ctr, ctr + 1, …`, each a fresh copy of `tests/fixtures` with symlinks
preserved. -/
def expectedRowEvents {A : Type} (testmod : String) (runners : List (String × A))
    (ctr : Nat) : List SandboxEvent :=
  (List.enumFrom ctr runners).map
    (fun p => { testmod := testmod, runner := p.2.1, dir := p.1
                copySrc := "tests/fixtures", copyDstSub := "fixtures"
                symlinks := true })

/-- Closed form of the whole grid built by `run_tests` when every spec
loads: one row per test in order, each cell depending only on its own
(test, runner) invocation. -/
def expectedGrid {A : Type} (call : A → String → TestSpec → Nat → Except RunErr ProcResult)
    (specOf : String → TestSpec) (runners : List (String × A)) :
    List String → Nat → List (String × List (String × Cell))
  | [], _ => []
  | t :: rest, ctr =>
    (t, expectedRow call t (specOf t) runners ctr) ::
      expectedGrid call specOf runners rest (ctr + runners.length)

/-- Closed form of the sandbox trace of `run_tests` when every spec
loads. -/
def expectedEvents {A : Type} (specOf : String → TestSpec) (runners : List (String × A)) :
    List String → Nat → List SandboxEvent
  | [], _ => []
  | t :: rest, ctr =>
    have _unused := specOf
    expectedRowEvents t runners ctr ++ expectedEvents specOf runners rest (ctr + runners.length)

/-- Column headers of the report (src/build.py lines 249-250): the
`testrunners` keys in declaration order. -/
def renderHeader {A : Type} (testrunners : List (String × A)) : List String :=
  testrunners.map Prod.fst

/-- The outcome cells of the rendered report (src/build.py lines
255-266): one `<td>` per (row, row-cell), carrying the cell's `status`
label, in row-major order. -/
def renderGrid (rows : List (String × List (String × Cell))) :
    List (String × String × Option String) :=
  rows.flatMap (fun row => row.2.map (fun c => (row.1, c.1, c.2.status)))

/-- The `tests` list of src/build.py line 180:
`sorted(glob.glob("tests/*.wasm"))`.  The glob result is the `raw`
parameter; Python `sorted` over strings is ascending lexicographic
ordering, modeled by insertion sort with `≤`. -/
def sortedTests (raw : List String) : List String :=
  List.insertionSort (fun a b => a ≤ b) raw

/-- Spec with all three expectation fields present, used to exercise the
stderr comparison. -/
def c1TestSpec : TestSpec :=
  { stdout := some "out", stderr := some "expected-err", exitCode := some 0 }

/-- Captured process whose stdout and exit code match `c1TestSpec` but
whose stderr differs from the expectation. -/
def c1Process : ProcResult :=
  { stdout := "out", stderr := "other-err", returncode := 0 }

/-- Spec with every field absent, in particular no `exitCode`
expectation. -/
def c4TestSpec : TestSpec := {}

/-- Process that terminated with a non-zero status. -/
def c4Process : ProcResult := { stdout := "", stderr := "", returncode := 1 }

/-- Stand-in for `json.dumps` in concrete instantiations. -/
def cSerialize : TestSpec → String := fun _ => "{}"

/-- Stand-in for `JSON.parse` in concrete instantiations, the inverse of
`cSerialize` on the default spec. -/
def cParse : String → TestSpec := fun _ => {}

/-- Spec-loading oracle in which every spec file loads as the default
spec. -/
def cLoadSpecOk : String → Except SpecErr TestSpec := fun _ => .ok {}

/-- Spec function matching `cLoadSpecOk`. -/
def cSpecOf : String → TestSpec := fun _ => {}

/-- Invocation oracle in which every adapter call succeeds with empty
output and a zero exit status. -/
def cCallOk : AdapterFn → String → TestSpec → Nat → Except RunErr ProcResult :=
  fun _ _ _ _ => .ok { stdout := "", stderr := "", returncode := 0 }

/-- Invocation oracle in which the deno binary is not installed: every
invocation through `run_deno_test` fails to launch, the other engines
run cleanly. -/
def c2Call : AdapterFn → String → TestSpec → Nat → Except RunErr ProcResult :=
  fun a _ _ _ =>
    match a with
    | .run_deno_test => .error .launchError
    | _ => .ok { stdout := "", stderr := "", returncode := 0 }

/-- Spec-loading oracle in which the spec document of `b.wasm` is
malformed and every other spec loads fine. -/
def c3LoadSpec : String → Except SpecErr TestSpec :=
  fun t => if t = "b.wasm" then .error (.specLoadFailure "malformed") else .ok {}

end WasiCompat

namespace WasiCompat

theorem foldl_append_pairs {α : Type} (f : α → List String) :
    ∀ (l : List α) (init : List String),
    l.foldl (fun acc x => acc ++ f x) init = init ++ l.flatMap f := by
  intro l
  induction l with
  | nil => intro init; simp
  | cons x xs ih => intro init; simp [List.foldl_cons, ih, List.append_assoc]

theorem foldl_append_singletons :
    ∀ (l : List String) (init : List String),
    l.foldl (fun acc a => acc ++ [a]) init = init ++ l := by
  intro l
  induction l with
  | nil => intro init; simp
  | cons x xs ih => intro init; simp [List.foldl_cons, ih]

theorem runRow_eq {A : Type} (call : A → String → TestSpec → Nat → Except RunErr ProcResult)
    (testmod : String) (testspec : TestSpec) :
    ∀ (runners : List (String × A)) (ctr : Nat),
    runRow call testmod testspec runners ctr =
      (expectedRow call testmod testspec runners ctr,
       expectedRowEvents testmod runners ctr, ctr + runners.length) := by
  intro runners
  induction runners with
  | nil => intro ctr; rfl
  | cons r rest ih =>
    intro ctr
    obtain ⟨name, fn⟩ := r
    simp only [runRow, ih, expectedRow, expectedRowEvents, List.enumFrom, List.map_cons,
      List.length_cons, Prod.mk.injEq]
    exact ⟨trivial, trivial, by omega⟩

theorem run_tests_eq {A : Type} (loadSpec : String → Except SpecErr TestSpec)
    (call : A → String → TestSpec → Nat → Except RunErr ProcResult)
    (specOf : String → TestSpec) (runners : List (String × A)) :
    ∀ (tests : List String) (ctr : Nat),
    (∀ t ∈ tests, loadSpec t = Except.ok (specOf t)) →
    run_tests loadSpec call runners tests ctr =
      Except.ok (expectedGrid call specOf runners tests ctr,
                 expectedEvents specOf runners tests ctr,
                 ctr + tests.length * runners.length) := by
  intro tests
  induction tests with
  | nil => intro ctr h; simp [run_tests, expectedGrid, expectedEvents]
  | cons t rest ih =>
    intro ctr h
    have ht : loadSpec t = Except.ok (specOf t) := h t (List.mem_cons_self t rest)
    have hrest : ∀ u ∈ rest, loadSpec u = Except.ok (specOf u) :=
      fun u hu => h u (List.mem_cons_of_mem _ hu)
    simp only [run_tests, ht, runRow_eq, ih _ hrest, Except.bind, bind, expectedGrid,
      expectedEvents, List.length_cons]
    refine congrArg Except.ok ?_
    refine congrArg (Prod.mk _) ?_
    refine congrArg (Prod.mk _) ?_
    have hmul : (rest.length + 1) * runners.length
        = runners.length + rest.length * runners.length := by
      rw [Nat.succ_mul]; omega
    omega

theorem mkCell_status_cases (r : Except RunErr ProcResult) :
    (mkCell r).status = some "pass" ∨ (mkCell r).status = some "fail" := by
  cases r with
  | ok p => exact Or.inl rfl
  | error e => exact Or.inr rfl

theorem expectedRow_congr {A : Type}
    (call call' : A → String → TestSpec → Nat → Except RunErr ProcResult)
    (testmod : String) (testspec : TestSpec) (runners : List (String × A)) (ctr : Nat)
    (h : ∀ a d, call a testmod testspec d = call' a testmod testspec d) :
    expectedRow call testmod testspec runners ctr
      = expectedRow call' testmod testspec runners ctr := by
  unfold expectedRow
  exact List.map_congr_left (fun p _ => by rw [h])

theorem expectedGrid_frame {A : Type}
    (call call' : A → String → TestSpec → Nat → Except RunErr ProcResult)
    (specOf : String → TestSpec) (runners : List (String × A)) (t0 : String)
    (hagree : ∀ a t s d, t ≠ t0 → call a t s d = call' a t s d) :
    ∀ (tests : List String) (ctr : Nat),
    List.Forall₂ (fun r1 r2 => r1.1 = r2.1 ∧ (r1.1 ≠ t0 → r1 = r2))
      (expectedGrid call specOf runners tests ctr)
      (expectedGrid call' specOf runners tests ctr) := by
  intro tests
  induction tests with
  | nil => intro ctr; exact List.Forall₂.nil
  | cons t rest ih =>
    intro ctr
    refine List.Forall₂.cons ⟨rfl, fun hne => ?_⟩ (ih _)
    have hrow := expectedRow_congr call call' t (specOf t) runners ctr
      (fun a d => hagree a t (specOf t) d hne)
    rw [hrow]

theorem expectedRow_map_fst {A : Type}
    (call : A → String → TestSpec → Nat → Except RunErr ProcResult)
    (testmod : String) (testspec : TestSpec) (runners : List (String × A)) (ctr : Nat) :
    (expectedRow call testmod testspec runners ctr).map Prod.fst
      = runners.map Prod.fst := by
  induction runners generalizing ctr with
  | nil => rfl
  | cons r rest ih =>
    simp only [expectedRow, List.enumFrom, List.map_cons] at *
    simp [ih]

theorem expectedRow_length {A : Type}
    (call : A → String → TestSpec → Nat → Except RunErr ProcResult)
    (testmod : String) (testspec : TestSpec) (runners : List (String × A)) (ctr : Nat) :
    (expectedRow call testmod testspec runners ctr).length = runners.length := by
  unfold expectedRow
  rw [List.length_map, List.enumFrom_length]

theorem expectedRow_cell_status {A : Type}
    (call : A → String → TestSpec → Nat → Except RunErr ProcResult)
    (testmod : String) (testspec : TestSpec) (runners : List (String × A)) (ctr : Nat) :
    ∀ cell ∈ expectedRow call testmod testspec runners ctr,
      cell.2.status = some "pass" ∨ cell.2.status = some "fail" := by
  intro cell hc
  unfold expectedRow at hc
  obtain ⟨p, _, hp⟩ := List.mem_map.mp hc
  rw [← hp]
  exact mkCell_status_cases _

theorem expectedGrid_map_fst {A : Type}
    (call : A → String → TestSpec → Nat → Except RunErr ProcResult)
    (specOf : String → TestSpec) (runners : List (String × A)) :
    ∀ (tests : List String) (ctr : Nat),
    (expectedGrid call specOf runners tests ctr).map Prod.fst = tests := by
  intro tests
  induction tests with
  | nil => intro ctr; rfl
  | cons t rest ih => intro ctr; simp [expectedGrid, ih]

theorem expectedGrid_row {A : Type}
    (call : A → String → TestSpec → Nat → Except RunErr ProcResult)
    (specOf : String → TestSpec) (runners : List (String × A)) :
    ∀ (tests : List String) (ctr : Nat),
    ∀ row ∈ expectedGrid call specOf runners tests ctr,
      ∃ d, row = (row.1, expectedRow call row.1 (specOf row.1) runners d) := by
  intro tests
  induction tests with
  | nil => intro ctr row hrow; cases hrow
  | cons t rest ih =>
    intro ctr row hrow
    rcases List.mem_cons.mp hrow with h | h
    · exact ⟨ctr, by rw [h]⟩
    · exact ih _ row h

theorem renderGrid_length_expectedGrid {A : Type}
    (call : A → String → TestSpec → Nat → Except RunErr ProcResult)
    (specOf : String → TestSpec) (runners : List (String × A)) :
    ∀ (tests : List String) (ctr : Nat),
    (renderGrid (expectedGrid call specOf runners tests ctr)).length
      = tests.length * runners.length := by
  intro tests
  induction tests with
  | nil => intro ctr; simp [renderGrid, expectedGrid]
  | cons t rest ih =>
    intro ctr
    simp only [expectedGrid, renderGrid, List.flatMap_cons, List.length_append,
      List.length_map, List.length_cons]
    rw [expectedRow_length]
    have := ih (ctr + runners.length)
    simp only [renderGrid] at this
    rw [this, Nat.succ_mul]
    ring

theorem renderGrid_cell_status {A : Type}
    (call : A → String → TestSpec → Nat → Except RunErr ProcResult)
    (specOf : String → TestSpec) (runners : List (String × A)) :
    ∀ (tests : List String) (ctr : Nat),
    ∀ c ∈ renderGrid (expectedGrid call specOf runners tests ctr),
      c.2.2 = some "pass" ∨ c.2.2 = some "fail" := by
  intro tests ctr c hc
  unfold renderGrid at hc
  obtain ⟨row, hrow, hcrow⟩ := List.mem_flatMap.mp hc
  obtain ⟨cell, hcell, hccell⟩ := List.mem_map.mp hcrow
  obtain ⟨d, hd⟩ := expectedGrid_row call specOf runners tests ctr row hrow
  rw [← hccell]
  have : cell ∈ expectedRow call row.1 (specOf row.1) runners d := by
    have h2 := congrArg Prod.snd hd
    simp only at h2
    rw [h2] at hcell
    exact hcell
  exact expectedRow_cell_status call row.1 (specOf row.1) runners d cell this

theorem range'_append_one (s m n : Nat) :
    List.range' s m ++ List.range' (s + m) n = List.range' s (m + n) := by
  have := List.range'_append s m n 1
  rw [Nat.one_mul] at this
  rw [this, Nat.add_comm n m]

theorem expectedRowEvents_map_dir {A : Type} (testmod : String)
    (runners : List (String × A)) (ctr : Nat) :
    (expectedRowEvents testmod runners ctr).map SandboxEvent.dir
      = List.range' ctr runners.length := by
  induction runners generalizing ctr with
  | nil => rfl
  | cons r rest ih =>
    simp only [expectedRowEvents, List.enumFrom, List.map_cons, List.length_cons,
      List.range'] at *
    simp [ih]

theorem expectedEvents_map_dir {A : Type} (specOf : String → TestSpec)
    (runners : List (String × A)) :
    ∀ (tests : List String) (ctr : Nat),
    (expectedEvents specOf runners tests ctr).map SandboxEvent.dir
      = List.range' ctr (tests.length * runners.length) := by
  intro tests
  induction tests with
  | nil => intro ctr; simp [expectedEvents]
  | cons t rest ih =>
    intro ctr
    simp only [expectedEvents, List.map_append, List.length_cons]
    rw [expectedRowEvents_map_dir, ih, range'_append_one, Nat.succ_mul, Nat.add_comm]

theorem expectedRowEvents_fields {A : Type} (testmod : String)
    (runners : List (String × A)) (ctr : Nat) :
    ∀ e ∈ expectedRowEvents testmod runners ctr,
      e.copySrc = "tests/fixtures" ∧ e.copyDstSub = "fixtures" ∧ e.symlinks = true := by
  intro e he
  unfold expectedRowEvents at he
  obtain ⟨p, _, hp⟩ := List.mem_map.mp he
  rw [← hp]
  exact ⟨rfl, rfl, rfl⟩

theorem expectedEvents_fields {A : Type} (specOf : String → TestSpec)
    (runners : List (String × A)) :
    ∀ (tests : List String) (ctr : Nat),
    ∀ e ∈ expectedEvents specOf runners tests ctr,
      e.copySrc = "tests/fixtures" ∧ e.copyDstSub = "fixtures" ∧ e.symlinks = true := by
  intro tests
  induction tests with
  | nil => intro ctr e he; cases he
  | cons t rest ih =>
    intro ctr e he
    unfold expectedEvents at he
    rcases List.mem_append.mp he with h | h
    · exact expectedRowEvents_fields t runners ctr e h
    · exact ih _ e h

/-- C1: the spec requires captured stderr to be compared against a present
`stderr` expectation with exact equality, and a run with mismatched
stderr must never be `pass`.  The code re-tests stdout on src/build.py
line 20 instead of comparing the bound `stderr` variable, so a run whose
captured stderr differs from the expectation while stdout and exit code
match is classified `pass`: the spec states the intent and line 20 is a
copy-paste slip (the `stderr` binding on line 19 is otherwise unused and
the raised message still speaks of stdout). -/
theorem c1_stderr_mismatch_still_passes :
    c1TestSpec.stderr = some "expected-err" ∧
    c1Process.stderr = "other-err" ∧
    run_test c1TestSpec c1Process = Except.ok c1Process ∧
    mkCell (run_test c1TestSpec c1Process) = { status := some "pass", error := none } := by
  refine ⟨rfl, rfl, ?_, ?_⟩ <;> rfl

/-- C4: with an absent `exitCode` expectation, `run_test` reaches
`process.check_returncode()` (src/build.py line 27), which raises on a
non-zero status, so the run is recorded `fail` by the aggregation loop
and is never `pass`. -/
theorem c4_absent_exitCode_nonzero_never_pass (s : TestSpec) (p : ProcResult)
    (hExit : s.exitCode = none) (hRc : p.returncode ≠ 0) :
    (∃ e : RunErr, run_test s p = Except.error e) ∧
    (mkCell (run_test s p)).status = some "fail" := by
  have hrun : ∃ e : RunErr, run_test s p = Except.error e := by
    simp only [run_test]
    split_ifs with h1 h2 h3
    · exact ⟨_, rfl⟩
    · exact ⟨_, rfl⟩
    · exact ⟨_, rfl⟩
    · exact absurd ⟨hExit, hRc⟩ h3
  obtain ⟨e, he⟩ := hrun
  exact ⟨⟨e, he⟩, by rw [he]; rfl⟩

/-- Witness for C4 at a concrete input: the empty spec and a process
exiting with status 1. -/
theorem c4_absent_exitCode_nonzero_never_pass_witness :
    c4TestSpec.exitCode = none ∧ c4Process.returncode ≠ 0 ∧
    ((∃ e : RunErr, run_test c4TestSpec c4Process = Except.error e) ∧
     (mkCell (run_test c4TestSpec c4Process)).status = some "fail") :=
  ⟨rfl, by decide,
   c4_absent_exitCode_nonzero_never_pass c4TestSpec c4Process rfl (by decide)⟩

/-- C5: the `testrunners` dict maps the column name `"node"` to
`run_deno_test` and the column name `"wasmer"` to `run_wasmtime_test`;
no entry maps to `test_node` or `run_wasmer_test`, so those adapter
functions are never invoked by the harness. -/
theorem c5_node_column_runs_deno_wasmer_column_runs_wasmtime :
    testrunners.lookup "node" = some AdapterFn.run_deno_test ∧
    testrunners.lookup "wasmer" = some AdapterFn.run_wasmtime_test ∧
    testrunners.lookup "deno" = some AdapterFn.run_deno_test ∧
    testrunners.lookup "wasmtime" = some AdapterFn.run_wasmtime_test ∧
    testrunners.all
      (fun p => !(p.2 == AdapterFn.test_node) && !(p.2 == AdapterFn.run_wasmer_test)) = true := by
  decide

/-- C6: both native-flag adapters build the command vector as the engine
binary and `run`, one `--env KEY=VALUE` pair per environment entry, one
`--mapdir guest::host` pair per preopen entry, the module path, and `--`
followed by the arguments exactly when the argument list is non-empty. -/
theorem c6_native_flag_command_shape (testmod : String) (s : TestSpec) :
    run_wasmer_test_cmd testmod s =
      ["wasmer", "run"]
        ++ s.env.flatMap (fun kv => ["--env", kv.1 ++ "=" ++ kv.2])
        ++ s.preopens.flatMap (fun kv => ["--mapdir", kv.1 ++ "::" ++ kv.2])
        ++ [testmod]
        ++ (if s.args.length > 0 then "--" :: s.args else []) ∧
    run_wasmtime_test_cmd testmod s =
      ["wasmtime", "run"]
        ++ s.env.flatMap (fun kv => ["--env", kv.1 ++ "=" ++ kv.2])
        ++ s.preopens.flatMap (fun kv => ["--mapdir", kv.1 ++ "::" ++ kv.2])
        ++ [testmod]
        ++ (if s.args.length > 0 then "--" :: s.args else []) := by
  constructor <;>
  · simp only [run_wasmer_test_cmd, run_wasmtime_test_cmd,
      foldl_append_pairs, foldl_append_singletons]
    cases s.args with
    | nil => simp
    | cons a as => simp [List.append_assoc]

/-- C7: the deno bootstrap bridge receives the serialized spec as its
first script argument and the module path as its second, and constructs
the guest context with argument vector `programPath :: spec.args`, the
spec's environment and the spec's preopens, as the embedded
`.test.deno.ts` source declares. -/
theorem c7_bootstrap_bridge (parse : String → TestSpec) (serialize : TestSpec → String)
    (s : TestSpec) (testmod : String) (hround : parse (serialize s) = s) :
    run_deno_test_cmd serialize testmod s =
      ["deno", "run", "--quiet", "--allow-all", "--unstable", ".test.deno.ts",
       serialize s, testmod] ∧
    denoBootstrap parse ((run_deno_test_cmd serialize testmod s).drop 6) =
      some { env := s.env, args := testmod :: s.args, preopens := s.preopens } := by
  refine ⟨rfl, ?_⟩
  show denoBootstrap parse [serialize s, testmod] = _
  simp [denoBootstrap, hround]

/-- Witness for C7 at a concrete input: the default spec with a trivial
serialize/parse pair and module `mod.wasm`. -/
theorem c7_bootstrap_bridge_witness :
    cParse (cSerialize {}) = {} ∧
    (run_deno_test_cmd cSerialize "mod.wasm" {} =
      ["deno", "run", "--quiet", "--allow-all", "--unstable", ".test.deno.ts",
       cSerialize {}, "mod.wasm"] ∧
     denoBootstrap cParse ((run_deno_test_cmd cSerialize "mod.wasm" {}).drop 6) =
      some { env := ({} : TestSpec).env, args := "mod.wasm" :: ({} : TestSpec).args,
             preopens := ({} : TestSpec).preopens }) :=
  ⟨rfl, c7_bootstrap_bridge cParse cSerialize {} "mod.wasm" rfl⟩

/-- C2 counterexample: with the deno binary uninstalled (its launch
raises), the cell recorded for the `deno` and `node` columns carries
verdict `"fail"`, not `"error"`: the `except Exception` branch of
src/build.py line 173-174 collapses launch failures into `"fail"`. -/
theorem c2_counterexample :
    (run_tests cLoadSpecOk c2Call testrunners ["t.wasm"] 0).map (fun r => r.1) =
      Except.ok [("t.wasm",
        [("deno", { status := some "fail", error := none }),
         ("node", { status := some "fail", error := none }),
         ("wasmer", { status := some "pass", error := none }),
         ("wasmtime", { status := some "pass", error := none })])] ∧
    (some "fail" : Option String) ≠ some "error" := by
  exact ⟨rfl, by decide⟩

/-- C2 amended: a cell whose engine binary cannot be started is recorded
with verdict `"fail"` (the harness collapses launch failures and
assertion mismatches into the same label; no `"error"` verdict exists),
and the outcomes of every other cell are unaffected: each cell of the
grid is `mkCell` of its own invocation only, and under any change of the
invocation oracle confined to one test the rows of all other tests are
unchanged. -/
theorem c2_launch_failure_recorded_fail {A : Type}
    (loadSpec : String → Except SpecErr TestSpec)
    (call call' : A → String → TestSpec → Nat → Except RunErr ProcResult)
    (specOf : String → TestSpec) (runners : List (String × A))
    (tests : List String) (ctr : Nat) (t0 : String)
    (hload : ∀ t ∈ tests, loadSpec t = Except.ok (specOf t))
    (hagree : ∀ a t s d, t ≠ t0 → call a t s d = call' a t s d) :
    (∀ e : RunErr, mkCell (Except.error e) = { status := some "fail", error := none }) ∧
    run_tests loadSpec call runners tests ctr =
      Except.ok (expectedGrid call specOf runners tests ctr,
                 expectedEvents specOf runners tests ctr,
                 ctr + tests.length * runners.length) ∧
    List.Forall₂ (fun r1 r2 => r1.1 = r2.1 ∧ (r1.1 ≠ t0 → r1 = r2))
      (expectedGrid call specOf runners tests ctr)
      (expectedGrid call' specOf runners tests ctr) := by
  refine ⟨fun e => rfl, ?_, ?_⟩
  · exact run_tests_eq loadSpec call specOf runners tests ctr hload
  · exact expectedGrid_frame call call' specOf runners t0 hagree tests ctr

/-- Witness for the amended C2 at a concrete input: one test, the real
`testrunners` configuration, the deno binary uninstalled, and the
oracle-change confined to the test itself. -/
theorem c2_launch_failure_recorded_fail_witness :
    cLoadSpecOk "t.wasm" = Except.ok (cSpecOf "t.wasm") ∧
    ((∀ e : RunErr, mkCell (Except.error e) = { status := some "fail", error := none }) ∧
     run_tests cLoadSpecOk c2Call testrunners ["t.wasm"] 0 =
       Except.ok (expectedGrid c2Call cSpecOf testrunners ["t.wasm"] 0,
                  expectedEvents cSpecOf testrunners ["t.wasm"] 0,
                  0 + ["t.wasm"].length * testrunners.length) ∧
     List.Forall₂ (fun r1 r2 => r1.1 = r2.1 ∧ (r1.1 ≠ "t.wasm" → r1 = r2))
       (expectedGrid c2Call cSpecOf testrunners ["t.wasm"] 0)
       (expectedGrid c2Call cSpecOf testrunners ["t.wasm"] 0)) :=
  ⟨rfl, c2_launch_failure_recorded_fail cLoadSpecOk c2Call c2Call cSpecOf testrunners
    ["t.wasm"] 0 "t.wasm" (fun t _ => rfl) (fun a t s d _ => rfl)⟩

/-- C3 counterexample: with the spec of `b.wasm` malformed and the spec
of `a.wasm` loading fine, `run_tests` raises past the aggregation loop:
the whole run aborts and no outcome is recorded for `a.wasm` either,
contradicting the claim that only `b.wasm`'s row is lost. -/
theorem c3_counterexample :
    c3LoadSpec "a.wasm" = Except.ok {} ∧
    run_tests c3LoadSpec cCallOk testrunners ["a.wasm", "b.wasm"] 0 =
      Except.error (SpecErr.specLoadFailure "malformed") := by
  exact ⟨rfl, rfl⟩

/-- C3 amended: a missing or malformed spec document does not abort only
that test's row — the loading exception propagates out of `run_tests`
(the load on src/build.py lines 156-157 sits outside any `try`), so the
whole aggregation aborts and no results survive for any test. -/
theorem c3_spec_failure_aborts_run {A : Type}
    (loadSpec : String → Except SpecErr TestSpec)
    (call : A → String → TestSpec → Nat → Except RunErr ProcResult)
    (runners : List (String × A)) (tests : List String) (ctr : Nat)
    (t0 : String) (e : SpecErr) (h0 : t0 ∈ tests)
    (hbad : loadSpec t0 = Except.error e) :
    ∃ u : SpecErr, run_tests loadSpec call runners tests ctr = Except.error u := by
  induction tests generalizing ctr with
  | nil => cases h0
  | cons t rest ih =>
    rcases List.mem_cons.mp h0 with h | h
    · exact ⟨e, by simp [run_tests, ← h, hbad, Except.bind, bind]⟩
    · cases hlt : loadSpec t with
      | error u => exact ⟨u, by simp [run_tests, hlt, Except.bind, bind]⟩
      | ok s' =>
        obtain ⟨u, hu⟩ := ih ((runRow call t s' runners ctr).2.2) h
        exact ⟨u, by simp [run_tests, hlt, Except.bind, bind, hu]⟩

/-- Witness for the amended C3 at a concrete input: two tests of which
the second has a malformed spec. -/
theorem c3_spec_failure_aborts_run_witness :
    ("b.wasm" ∈ ["a.wasm", "b.wasm"] ∧
     c3LoadSpec "b.wasm" = Except.error (SpecErr.specLoadFailure "malformed")) ∧
    (∃ u : SpecErr, run_tests c3LoadSpec cCallOk testrunners ["a.wasm", "b.wasm"] 0 =
      Except.error u) :=
  ⟨⟨by decide, rfl⟩,
   c3_spec_failure_aborts_run c3LoadSpec cCallOk testrunners ["a.wasm", "b.wasm"] 0
     "b.wasm" (SpecErr.specLoadFailure "malformed") (by decide) rfl⟩

/-- C8: when the run completes, the report grid contains exactly
`|tests| × |runners|` outcome cells, and every cell carries a non-null
verdict label (`"pass"` or `"fail"`), whatever the invocation oracle
does — in particular when some adapters fail to launch. -/
theorem c8_matrix_complete {A : Type}
    (loadSpec : String → Except SpecErr TestSpec)
    (call : A → String → TestSpec → Nat → Except RunErr ProcResult)
    (specOf : String → TestSpec) (runners : List (String × A)) (tests : List String)
    (ctr : Nat) (hload : ∀ t ∈ tests, loadSpec t = Except.ok (specOf t)) :
    ∃ rows evs ctr2,
      run_tests loadSpec call runners tests ctr = Except.ok (rows, evs, ctr2) ∧
      (renderGrid rows).length = tests.length * runners.length ∧
      ∀ c ∈ renderGrid rows, c.2.2 = some "pass" ∨ c.2.2 = some "fail" := by
  refine ⟨_, _, _, run_tests_eq loadSpec call specOf runners tests ctr hload, ?_, ?_⟩
  · exact renderGrid_length_expectedGrid call specOf runners tests ctr
  · exact renderGrid_cell_status call specOf runners tests ctr

/-- Witness for C8 at a concrete input: two tests, the real
`testrunners` configuration, and an oracle under which the deno engine
cannot be launched. -/
theorem c8_matrix_complete_witness :
    (∀ t ∈ ["a.wasm", "b.wasm"], cLoadSpecOk t = Except.ok (cSpecOf t)) ∧
    (∃ rows evs ctr2,
      run_tests cLoadSpecOk c2Call testrunners ["a.wasm", "b.wasm"] 0 =
        Except.ok (rows, evs, ctr2) ∧
      (renderGrid rows).length = ["a.wasm", "b.wasm"].length * testrunners.length ∧
      ∀ c ∈ renderGrid rows, c.2.2 = some "pass" ∨ c.2.2 = some "fail") :=
  ⟨fun t _ => rfl,
   c8_matrix_complete cLoadSpecOk c2Call cSpecOf testrunners ["a.wasm", "b.wasm"] 0
     (fun t _ => rfl)⟩

/-- C9: rows of the rendered report appear in ascending lexicographic
order of test identifier (the `sorted` on src/build.py line 180, kept by
the insertion-ordered dicts), and columns appear in the declaration
order of the configured runners, both in the header and in every row. -/
theorem c9_report_ordering {A : Type}
    (loadSpec : String → Except SpecErr TestSpec)
    (call : A → String → TestSpec → Nat → Except RunErr ProcResult)
    (specOf : String → TestSpec) (raw : List String)
    (runners : List (String × A)) (ctr : Nat)
    (hload : ∀ t ∈ sortedTests raw, loadSpec t = Except.ok (specOf t)) :
    ∃ rows evs ctr2,
      run_tests loadSpec call runners (sortedTests raw) ctr = Except.ok (rows, evs, ctr2) ∧
      rows.map Prod.fst = sortedTests raw ∧
      List.Sorted (fun a b : String => a ≤ b) (rows.map Prod.fst) ∧
      renderHeader runners = runners.map Prod.fst ∧
      ∀ row ∈ rows, row.2.map Prod.fst = runners.map Prod.fst := by
  refine ⟨_, _, _, run_tests_eq loadSpec call specOf runners (sortedTests raw) ctr hload,
    expectedGrid_map_fst call specOf runners (sortedTests raw) ctr, ?_, rfl, ?_⟩
  · rw [expectedGrid_map_fst call specOf runners (sortedTests raw) ctr]
    exact List.sorted_insertionSort (fun a b : String => a ≤ b) raw
  · intro row hrow
    obtain ⟨d, hd⟩ := expectedGrid_row call specOf runners (sortedTests raw) ctr row hrow
    have h2 := congrArg Prod.snd hd
    simp only at h2
    rw [h2]
    exact expectedRow_map_fst call row.1 (specOf row.1) runners d

/-- Witness for C9 at a concrete input: an unsorted raw glob result and
the real `testrunners` configuration. -/
theorem c9_report_ordering_witness :
    (∀ t ∈ sortedTests ["b.wasm", "a.wasm"], cLoadSpecOk t = Except.ok (cSpecOf t)) ∧
    (∃ rows evs ctr2,
      run_tests cLoadSpecOk cCallOk testrunners (sortedTests ["b.wasm", "a.wasm"]) 0 =
        Except.ok (rows, evs, ctr2) ∧
      rows.map Prod.fst = sortedTests ["b.wasm", "a.wasm"] ∧
      List.Sorted (fun a b : String => a ≤ b) (rows.map Prod.fst) ∧
      renderHeader testrunners = testrunners.map Prod.fst ∧
      ∀ row ∈ rows, row.2.map Prod.fst = testrunners.map Prod.fst) :=
  ⟨fun t _ => rfl,
   c9_report_ordering cLoadSpecOk cCallOk cSpecOf ["b.wasm", "a.wasm"] testrunners 0
     (fun t _ => rfl)⟩

/-- C10: every (test, runner) execution provisions its own sandbox: a
fresh `mkdtemp` directory (all directories of a run pairwise distinct,
none reused), populated by one `copytree` of `tests/fixtures` into the
`fixtures` subdirectory of that sandbox with `symlinks=True` (links
copied as links, not resolved), one provisioning per cell. -/
theorem c10_sandbox_fresh_unique {A : Type}
    (loadSpec : String → Except SpecErr TestSpec)
    (call : A → String → TestSpec → Nat → Except RunErr ProcResult)
    (specOf : String → TestSpec) (runners : List (String × A)) (tests : List String)
    (ctr : Nat) (hload : ∀ t ∈ tests, loadSpec t = Except.ok (specOf t)) :
    ∃ rows evs ctr2,
      run_tests loadSpec call runners tests ctr = Except.ok (rows, evs, ctr2) ∧
      evs.length = tests.length * runners.length ∧
      (∀ e ∈ evs, e.copySrc = "tests/fixtures" ∧ e.copyDstSub = "fixtures" ∧
        e.symlinks = true) ∧
      (evs.map SandboxEvent.dir).Nodup := by
  refine ⟨_, _, _, run_tests_eq loadSpec call specOf runners tests ctr hload, ?_, ?_, ?_⟩
  · have := congrArg List.length (expectedEvents_map_dir specOf runners tests ctr)
    rw [List.length_map, List.length_range'] at this
    exact this
  · exact expectedEvents_fields specOf runners tests ctr
  · rw [expectedEvents_map_dir specOf runners tests ctr]
    exact List.nodup_range' ctr (tests.length * runners.length)

/-- Witness for C10 at a concrete input: two tests and the real
`testrunners` configuration. -/
theorem c10_sandbox_fresh_unique_witness :
    (∀ t ∈ ["a.wasm", "b.wasm"], cLoadSpecOk t = Except.ok (cSpecOf t)) ∧
    (∃ rows evs ctr2,
      run_tests cLoadSpecOk cCallOk testrunners ["a.wasm", "b.wasm"] 0 =
        Except.ok (rows, evs, ctr2) ∧
      evs.length = ["a.wasm", "b.wasm"].length * testrunners.length ∧
      (∀ e ∈ evs, e.copySrc = "tests/fixtures" ∧ e.copyDstSub = "fixtures" ∧
        e.symlinks = true) ∧
      (evs.map SandboxEvent.dir).Nodup) :=
  ⟨fun t _ => rfl,
   c10_sandbox_fresh_unique cLoadSpecOk cCallOk cSpecOf testrunners ["a.wasm", "b.wasm"] 0
     (fun t _ => rfl)⟩

end WasiCompat
